import Mathlib

/-
Verification of the job-dispatch core of node-siap-bridge (src/queue.js).

The JavaScript classes `SiapQueue` (queue item) and `SiapDequeue`
(dispatcher) are shallowly embedded: pure methods become Lean functions,
stateful methods become explicit state-passing functions, JS `undefined`
becomes `Option.none`, millisecond timestamps become `Int`, and the
`console.log` side effect of `setStatus`/`setResult` is rendered as a
returned `Bool` flag (whether a log line was emitted).
-/

namespace SiapBridge

/-- Queue item statuses (`SiapQueue.STATUS_*`, src/queue.js:503-508). -/
inductive Status where
  | new
  | processing
  | done
  | error
  | timedOut
  | skipped
deriving DecidableEq

/-- Queue item types (`SiapQueue.QUEUE_*`, src/queue.js:498-501). -/
inductive QType where
  | spp
  | callback
  | captcha
  | noop
deriving DecidableEq

/-- The string stored for each type constant (src/queue.js:498-501). -/
def typeText : QType → String
  | QType.spp => "spp"
  | QType.callback => "callback"
  | QType.captcha => "captcha"
  | QType.noop => "noop"

/-- A recorded result: either a success value or a failure.  The failure
carries whether it was a `SiapRetryError` (the distinguished retryable
failure kind imported from ./siap, src/queue.js:31). -/
inductive QResult where
  | val (s : String)
  | err (retryable : Bool) (msg : String)
deriving DecidableEq

/-- The settlement of one `consumer.processQueue` call. -/
inductive Settle where
  | ok (v : String)
  | fail (retryable : Bool) (msg : String)
deriving DecidableEq

/-- The `data` payload of an item: string fields used by the field
resolver, plus the optional numeric `timeout` property consulted by the
poll loop (src/queue.js:129-130). -/
structure DataMap where
  fields : List (String × String) := []
  timeout : Option Int := none
deriving DecidableEq

/-- The nested `maps` object (src/queue.js:329-351): leaves are data-key
strings, inner nodes map path components to subtrees. -/
inductive MapTree where
  | leaf (s : String)
  | node (children : List (String × MapTree))

/-- JS truthiness of a `maps` entry: objects are truthy, a string is
truthy iff non-empty (used by `if (o[n])`, src/queue.js:341). -/
def mapTruthy : MapTree → Bool
  | MapTree.leaf s => s ≠ ""
  | MapTree.node _ => true

/-- Property access `o[n]` on a `maps` node; accessing a property of a
string leaf yields undefined. -/
def mapChild (m : MapTree) (n : String) : Option MapTree :=
  match m with
  | MapTree.leaf _ => none
  | MapTree.node cs => (cs.find? (fun p => p.1 = n)).map (fun p => p.2)

/-- A `SiapQueue` instance (src/queue.js:278-509).  Optional hooks
(`onretry`, `ontimeout`) are modelled by presence flags where only their
presence matters to control flow; `resolve`/`reject` continuations are
not modelled (they only forward the settled value). -/
structure QItem where
  type : QType
  id : Option String := none
  data : Option DataMap := none
  maps : Option MapTree := none
  status : Status := Status.new
  result : Option QResult := none
  time : Option Int := none
  retry : Bool := false
  retryCount : Option Nat := none
  info : Option String := none
  callback : Option String := none
  hasOntimeout : Bool := false

/-- `setStatus` (src/queue.js:300-305): assign and log only when the new
status differs.  The `Bool` is the log side effect. -/
def setStatusL (q : QItem) (s : Status) : QItem × Bool :=
  if q.status = s then (q, false) else ({ q with status := s }, true)

/-- `setResult` (src/queue.js:307-312): assign and log only when the new
result differs (`this.result !== result`). -/
def setResultL (q : QItem) (r : QResult) : QItem × Bool :=
  if q.result = some r then (q, false) else ({ q with result := some r }, true)

/-- `setTime` with no argument (src/queue.js:314-319): stamp `now`. -/
def setTime (now : Int) (q : QItem) : QItem :=
  { q with time := some now }

/-- `start` (src/queue.js:396-399): stamp the time, then set PROCESSING. -/
def startItem (now : Int) (q : QItem) : QItem :=
  (setStatusL (setTime now q) Status.processing).1

/-- `done` (src/queue.js:401-404): set DONE, then record the result. -/
def doneItem (r : QResult) (q : QItem) : QItem :=
  (setResultL (setStatusL q Status.done).1 r).1

/-- `error` (src/queue.js:406-409): set ERROR, then record the error. -/
def errorItem (r : QResult) (q : QItem) : QItem :=
  (setResultL (setStatusL q Status.error).1 r).1

/-- `getInfo` (src/queue.js:437-443): the caller label, falling back to
`callback` for CALLBACK items when `info` is falsy. -/
def getInfoItem (q : QItem) : Option String :=
  match q.info with
  | some i => if i = "" then (if q.type = QType.callback then q.callback else some i) else some i
  | none => if q.type = QType.callback then q.callback else none

/-- `toString` (src/queue.js:445-448): `type:id` plus the label when
truthy (an absent id prints as "undefined" in a JS template string). -/
def itemToString (q : QItem) : String :=
  let idStr := match q.id with
    | some i => i
    | none => "undefined"
  let base := typeText q.type ++ ":" ++ idStr
  match getInfoItem q with
  | some i => if i = "" then base else base ++ " " ++ i
  | none => base

/-- JS `String.prototype.split` with a one-character separator (the
source only splits on ':', '|' and '.'): maximal separator-free runs,
keeping empty runs, so `"a|b" → ["a","b"]` and `"" → [""]`. -/
def splitCharAux (c : Char) : List Char → List Char → List String
  | [], acc => [String.mk acc.reverse]
  | x :: xs, acc =>
    if x = c then String.mk acc.reverse :: splitCharAux c xs []
    else splitCharAux c xs (x :: acc)

def jsSplitChar (c : Char) (s : String) : List String :=
  splitCharAux c s.data []

/-- JS `String.prototype.trim`. -/
def jsTrim (s : String) : String :=
  String.mk (((s.data.dropWhile Char.isWhitespace).reverse.dropWhile Char.isWhitespace).reverse)

/-- JS `String.prototype.replace` with a global regex of a literal
non-empty pattern: non-overlapping left-to-right replacement.  The
`skip` counter suppresses the tail of a pattern occurrence that was
just replaced, keeping the recursion structural on the scanned list. -/
def replaceSkip (pat rep : List Char) : List Char → Nat → List Char
  | [], _ => []
  | _ :: xs, skip + 1 => replaceSkip pat rep xs skip
  | x :: xs, 0 =>
    if pat.isPrefixOf (x :: xs) then rep ++ replaceSkip pat rep xs (pat.length - 1)
    else x :: replaceSkip pat rep xs 0

def jsReplaceAll (s pat rep : String) : String :=
  match pat.data with
  | [] => s
  | _ :: _ => String.mk (replaceSkip pat.data rep.data s.data 0)

/-- JS `String.prototype.indexOf` for a single character: the index of
the first occurrence, or -1. -/
def charIndexFrom : List Char → Char → Nat → Option Nat
  | [], _, _ => none
  | x :: xs, c, i => if x = c then some i else charIndexFrom xs c (i + 1)

/-- `key.indexOf(c)` as an `Int` (-1 when absent). -/
def jsIndexOf (s : String) (c : Char) : Int :=
  match charIndexFrom s.data c 0 with
  | some i => (i : Int)
  | none => -1

/-- `this.data[key]` on the string fields of the payload. -/
def lookupField (fields : List (String × String)) (k : String) : Option String :=
  (fields.find? (fun p => p.1 = k)).map (fun p => p.2)

/-- JS `Array.prototype.join(sep)` over already-stringified elements. -/
def joinWith (sep : String) : List String → String
  | [] => ""
  | [x] => x
  | x :: y :: xs => x ++ sep ++ joinWith sep (y :: xs)

/-- A CONCAT element: `Array.join` renders an undefined element as "". -/
def joinElem : Option String → String
  | some s => s
  | none => ""

/-- A FORMAT replacement: `String.replace` stringifies an undefined
replacement as "undefined". -/
def fmtElem : Option String → String
  | some s => s
  | none => "undefined"

/-- The FORMAT forEach loop (src/queue.js:388-390): replace every
occurrence of `%N%` in the accumulated template with the N-th resolved
value, sequentially. -/
def formatLoop (resolve : String → Option String) : String → List String → Nat → String
  | template, [], _ => template
  | template, n :: rest, i =>
    formatLoop resolve
      (jsReplaceAll template ("%" ++ toString i ++ "%") (fmtElem (resolve (jsTrim n))))
      rest (i + 1)

/-- `getTranslatedValue` (src/queue.js:369-394), with the recursive
`getDataValue` calls abstracted into `resolve`. -/
def getTranslatedValueAux (resolve : String → Option String) (value : String) : String :=
  match jsSplitChar ':' value with
  | vtype :: vvalue :: _ =>
    if vtype = "CONCAT" then
      match jsSplitChar '|' vvalue with
      | separator :: values =>
        joinWith separator (values.map (fun n => joinElem (resolve (jsTrim n))))
      | [] => value
    else if vtype = "FORMAT" then
      match jsSplitChar '|' vvalue with
      | template :: values => formatLoop resolve template values 1
      | [] => value
    else value
  | _ => value

/-- `getDataValue` (src/queue.js:357-367): a literal field wins; else a
key containing a colon past position 0 is translated; else undefined.
The JS mutual recursion through `getTranslatedValue` terminates because
every recursive key is strictly shorter; here that is rendered with a
fuel parameter (any fuel at least the key length behaves like the JS). -/
def getDataValue (fields : List (String × String)) : Nat → String → Option String
  | 0, _ => none
  | fuel + 1, key =>
    match lookupField fields key with
    | some v => some v
    | none =>
      if jsIndexOf key ':' > 0 then
        some (getTranslatedValueAux (getDataValue fields fuel) key)
      else
        none

/-- `getTranslatedValue` as the method on an item payload. -/
def getTranslatedValue (fields : List (String × String)) (fuel : Nat) (value : String) : String :=
  getTranslatedValueAux (getDataValue fields fuel) value

/-- The `while (parts.length)` walk of `getMap` (src/queue.js:339-347):
descend through truthy children, else null. -/
def walkMaps : List String → MapTree → Option MapTree
  | [], o => some o
  | n :: rest, o =>
    match mapChild o n with
    | some c => if mapTruthy c then walkMaps rest c else none
    | none => none

/-- `getMap` for a string name (src/queue.js:329-351): undefined when
`maps` is unset, else the walked entry (null when a step is missing).
The array-name overload is not used by the properties verified here. -/
def getMap (maps : Option MapTree) (name : String) : Option MapTree :=
  match maps with
  | some m => walkMaps (jsSplitChar '.' name) m
  | none => none

/-- The string fields of an item's payload (empty when `data` unset). -/
def itemFields (q : QItem) : List (String × String) :=
  match q.data with
  | some d => d.fields
  | none => []

/-- `getMappedData` (src/queue.js:353-355): feed the mapped entry into
`getDataValue`; a non-string entry (undefined, null or a subtree) makes
`getDataValue` return undefined. -/
def getMappedData (q : QItem) (fuel : Nat) (name : String) : Option String :=
  match getMap q.maps name with
  | some (MapTree.leaf s) => getDataValue (itemFields q) fuel s
  | _ => none

/-- Truncate to a 32-bit word. -/
def w32 (n : Nat) : Nat := n % 4294967296

/-- 32-bit left rotation (argument assumed below 2^32). -/
def rotl (k n : Nat) : Nat := w32 ((n <<< k) ||| (n >>> (32 - k)))

/-- 32-bit complement. -/
def not32 (n : Nat) : Nat := n ^^^ 4294967295

/-- SHA-1 padding: append 0x80, zero bytes up to 56 mod 64, then the
bit length as 8 big-endian bytes. -/
def sha1Pad (msg : List Nat) : List Nat :=
  let ml := 8 * msg.length
  let z := (120 - ((msg.length + 1) % 64)) % 64
  msg ++ [128] ++ List.replicate z 0 ++
    [(ml >>> 56) % 256, (ml >>> 48) % 256, (ml >>> 40) % 256, (ml >>> 32) % 256,
     (ml >>> 24) % 256, (ml >>> 16) % 256, (ml >>> 8) % 256, ml % 256]

/-- Split a byte list into 64-byte chunks. -/
def chunks64 : List Nat → List (List Nat)
  | [] => []
  | x :: xs => (x :: xs).take 64 :: chunks64 ((x :: xs).drop 64)
termination_by l => l.length
decreasing_by
  simp only [List.length_drop, List.length_cons]
  omega

/-- The first 16 message-schedule words of a chunk (big-endian). -/
def sha1Words16 (chunk : List Nat) : Array Nat :=
  ((List.range 16).map (fun i =>
    (chunk.getD (4 * i) 0) <<< 24 ||| (chunk.getD (4 * i + 1) 0) <<< 16 |||
    (chunk.getD (4 * i + 2) 0) <<< 8 ||| chunk.getD (4 * i + 3) 0)).toArray

/-- Extend the message schedule to 80 words. -/
def sha1Extend : Nat → Array Nat → Array Nat
  | 0, w => w
  | k + 1, w =>
    let i := w.size
    sha1Extend k (w.push (rotl 1
      ((w.getD (i - 3) 0) ^^^ (w.getD (i - 8) 0) ^^^ (w.getD (i - 14) 0) ^^^ (w.getD (i - 16) 0))))

/-- The per-round nonlinear function and constant. -/
def sha1FK (i b c d : Nat) : Nat × Nat :=
  if i < 20 then ((b &&& c) ||| ((not32 b) &&& d), 1518500249)
  else if i < 40 then (b ^^^ c ^^^ d, 1859775393)
  else if i < 60 then ((b &&& c) ||| (b &&& d) ||| (c &&& d), 2400959708)
  else (b ^^^ c ^^^ d, 3395469782)

/-- The 80 compression rounds (`k` rounds remaining). -/
def sha1Rounds : Nat → Array Nat → Nat × Nat × Nat × Nat × Nat → Nat × Nat × Nat × Nat × Nat
  | 0, _, st => st
  | k + 1, w, (a, b, c, d, e) =>
    let i := 80 - (k + 1)
    let fk := sha1FK i b c d
    let temp := w32 (rotl 5 a + fk.1 + e + fk.2 + w.getD i 0)
    sha1Rounds k w (temp, a, rotl 30 b, c, d)

/-- Process one 64-byte chunk. -/
def sha1Chunk (st : Nat × Nat × Nat × Nat × Nat) (chunk : List Nat) :
    Nat × Nat × Nat × Nat × Nat :=
  let w := sha1Extend 64 (sha1Words16 chunk)
  let r := sha1Rounds 80 w st
  (w32 (st.1 + r.1), w32 (st.2.1 + r.2.1), w32 (st.2.2.1 + r.2.2.1),
   w32 (st.2.2.2.1 + r.2.2.2.1), w32 (st.2.2.2.2 + r.2.2.2.2))

/-- Serialize the five state words as 20 big-endian digest bytes. -/
def sha1Digest (st : Nat × Nat × Nat × Nat × Nat) : List Nat :=
  [(st.1 >>> 24) % 256, (st.1 >>> 16) % 256, (st.1 >>> 8) % 256, st.1 % 256,
   (st.2.1 >>> 24) % 256, (st.2.1 >>> 16) % 256, (st.2.1 >>> 8) % 256, st.2.1 % 256,
   (st.2.2.1 >>> 24) % 256, (st.2.2.1 >>> 16) % 256, (st.2.2.1 >>> 8) % 256, st.2.2.1 % 256,
   (st.2.2.2.1 >>> 24) % 256, (st.2.2.2.1 >>> 16) % 256, (st.2.2.2.1 >>> 8) % 256, st.2.2.2.1 % 256,
   (st.2.2.2.2 >>> 24) % 256, (st.2.2.2.2 >>> 16) % 256, (st.2.2.2.2 >>> 8) % 256, st.2.2.2.2 % 256]

/-- SHA-1 of a byte list (`crypto.createHash('sha1')`). -/
def sha1 (msg : List Nat) : List Nat :=
  sha1Digest ((chunks64 (sha1Pad msg)).foldl sha1Chunk
    (1732584193, 4023233417, 2562383102, 271733878, 3285377520))

/-- The sixteen lowercase hexadecimal digits. -/
def hexChars : List Char := "0123456789abcdef".data

/-- One hex digit. -/
def hexChar (n : Nat) : Char := hexChars.getD n '0'

/-- Lowercase hex encoding of a byte list (`digest('hex')`). -/
def toHex (bytes : List Nat) : List Char :=
  bytes.foldr (fun b acc => hexChar (b / 16) :: hexChar (b % 16) :: acc) []

/-- The code points of a string (for digit strings these are the bytes
`crypto.update` hashes). -/
def asciiBytes (s : String) : List Nat := s.data.map Char.toNat

/-- `genId` (src/queue.js:187-193): SHA-1 of the decimal string of the
current millisecond timestamp, hex-encoded, truncated to 8 characters. -/
def genId (now : Int) : String :=
  String.mk ((toHex (sha1 (asciiBytes (toString now)))).take 8)

/-- A log record (`getLog`, src/queue.js:420-435). -/
structure LogEntry where
  id : Option String
  type : QType
  name : Option String := none
  time : Option Int := none
  status : Status
  result : Option String := none
deriving DecidableEq

/-- JS truthiness of a recorded result (`if (this.result)`). -/
def resultTruthy : QResult → Bool
  | QResult.val s => s ≠ ""
  | QResult.err _ _ => true

/-- Display of a result in a non-raw log: `Error.toString()` for errors,
the value itself for strings. -/
def resultDisplay : QResult → String
  | QResult.val s => s
  | QResult.err _ m => "Error: " ++ m

/-- `getLog` with `raw = false` (src/queue.js:420-435). -/
def getLogEntry (q : QItem) : LogEntry :=
  let name := match getInfoItem q with
    | some i => if i = "" then none else some i
    | none => none
  let result := match q.result with
    | some r => if resultTruthy r then some (resultDisplay r) else none
    | none => none
  { id := q.id, type := q.type, name := name, time := q.time,
    status := q.status, result := result }

/-- The acknowledgement returned by `add` (src/queue.js:165). -/
structure AddAck where
  status : String
  id : Option String
deriving DecidableEq

/-- A `SiapDequeue` instance (src/queue.js:36-276).  `queues` is the
full item history, `pending` is the inner sequential runner's pending
list (`this.queue.queues` of the @ntlab/work queue), `last` the most
recently finished non-callback item. -/
structure DequeueState where
  time : Int := 0
  queues : List QItem := []
  pending : List QItem := []
  last : Option QItem := none
  timeout : Int := 600000
  retry : Nat := 3
  info : List (String × String) := []

/-- The `SiapDequeue` constructor (src/queue.js:40-47): empty history,
empty pending list, timeout 10 * 60 * 1000 ms, retry ceiling 3. -/
def initDequeue (now : Int) : DequeueState :=
  { time := now, queues := [], pending := [], last := none,
    timeout := 10 * 60 * 1000, retry := 3, info := [] }

/-- Modelled from the spec: the pending-list insert of the Sequential
Runner (`Queue.requeue` of the @ntlab/work package, which is not part of
this repository's sources) — "append to the tail, or, if `priority` is
true, insert at the head"; the runner dispatches from the head. -/
def runnerEnqueue (pending : List QItem) (q : QItem) (priority : Bool) : List QItem :=
  if priority then q :: pending else pending ++ [q]

/-- JS falsiness of `queue.id` (`if (!queue.id)`, src/queue.js:159):
absent or the empty string. -/
def idAbsent (q : QItem) : Bool :=
  match q.id with
  | none => true
  | some s => s = ""

/-- `add` (src/queue.js:158-166): assign a fresh id when absent, push
onto the history, enqueue with priority exactly for CALLBACK items, and
acknowledge `{status: 'queued', id}`.  (The `this.queue.next()` wake-up
call does not change the state modelled here.) -/
def SiapDequeue.add (now : Int) (q : QItem) (s : DequeueState) : DequeueState × AddAck :=
  let q := if idAbsent q then { q with id := some (genId now) } else q
  ({ s with queues := s.queues ++ [q],
            pending := runnerEnqueue s.pending q (q.type = QType.callback) },
   { status := "queued", id := q.id })

/-- `setLastQueue` (src/queue.js:180-185): record only non-callback
items. -/
def setLastQueue (q : QItem) (s : DequeueState) : DequeueState :=
  if q.type = QType.callback then s else { s with last := some q }

/-- The `success` closure of `doQueue` (src/queue.js:51-59) acting on
the item and dispatcher state: `queue.done(res)`, then `setLastQueue`.
The `resolve` continuation, event emission and runner wake-up carry no
modelled state. -/
def successHandler (res : String) (q : QItem) (s : DequeueState) : QItem × DequeueState :=
  let q := doneItem (QResult.val res) q
  (q, setLastQueue q s)

/-- The `fail` closure of `doQueue` (src/queue.js:60-68):
`queue.error(err)`, then `setLastQueue`. -/
def failHandler (retryable : Bool) (msg : String) (q : QItem) (s : DequeueState) :
    QItem × DequeueState :=
  let q := errorItem (QResult.err retryable msg) q
  (q, setLastQueue q s)

/-- The `doit`/`retry` recursion of `doQueue` (src/queue.js:49-110)
acting on one item.  `outcomes i` is the settlement of the i-th
`consumer.processQueue` call, `attempt` counts calls made so far, and
the returned `Nat` is the total number of attempts.  A SKIPPED item is
bypassed (src/queue.js:86,99-101); on failure `retryCount` is
incremented (undefined counts as 0, src/queue.js:70) and the call is
re-run exactly when the failure is a `SiapRetryError`, `queue.retry`
holds, and the new count is at most the ceiling (src/queue.js:71).  The
dispatcher bookkeeping of the success/fail closures is modelled by
`successHandler`/`failHandler`; here only the item is threaded.

`bumpRetry` is the increment of src/queue.js:70: an undefined
`retryCount` counts as 0. -/
def bumpRetry (q : QItem) : QItem :=
  { q with retryCount := some (q.retryCount.getD 0 + 1) }

def doQueueRun (retryCeil : Nat) (outcomes : Nat → Settle) (now : Int)
    (attempt : Nat) (q : QItem) : QItem × Nat :=
  if q.status = Status.skipped then
    (q, attempt)
  else
    match outcomes attempt with
    | Settle.ok v => (doneItem (QResult.val v) (startItem now q), attempt + 1)
    | Settle.fail r m =>
      if h : r = true ∧ q.retry = true ∧
          (bumpRetry (startItem now q)).retryCount.getD 0 ≤ retryCeil then
        doQueueRun retryCeil outcomes now (attempt + 1) (bumpRetry (startItem now q))
      else
        (errorItem (QResult.err r m) (bumpRetry (startItem now q)), attempt + 1)
termination_by retryCeil + 1 - q.retryCount.getD 0
decreasing_by
  have e : (startItem now q).retryCount = q.retryCount := by
    simp only [startItem, setTime, setStatusL]
    split <;> rfl
  obtain ⟨-, -, hrc⟩ := h
  simp only [bumpRetry, e, Option.getD_some] at hrc ⊢
  omega

/-- Replace the first element satisfying `p` (the JS poll loop mutates
`processing[0]`, which is that element of the history list). -/
def updateFirst (p : α → Bool) (f : α → α) : List α → List α
  | [] => []
  | x :: xs => if p x then f x :: xs else x :: updateFirst p f xs

/-- The effective timeout of an item (src/queue.js:129-130):
`data.timeout` when `data` exists and carries one, else the dispatcher
default. -/
def effTimeout (defTimeout : Int) (q : QItem) : Int :=
  match q.data with
  | some d =>
    match d.timeout with
    | some t => t
    | none => defTimeout
  | none => defTimeout

/-- One iteration of the poll loop `f` (src/queue.js:122-148), without
the 100 ms rescheduling.  Returns the new state and the number of
`this.queue.next()` (advance) calls it triggers.  When the earliest
PROCESSING item has exceeded its effective timeout it is set TIMED_OUT
and advance is called once — the `ontimeout` hook merely delays that
call, since both its then- and catch-arm invoke `next()`
(src/queue.js:133-140).  With no PROCESSING item, a non-empty history
triggers the safety-net advance (src/queue.js:142-144). -/
def pollTick (now : Int) (s : DequeueState) : DequeueState × Nat :=
  match s.queues.filter (fun q => q.status = Status.processing) with
  | q :: _ =>
    let d := now - (q.time.getD 0)
    let t := effTimeout s.timeout q
    if t > 0 ∧ d > t then
      ({ s with queues := updateFirst (fun x => x.status = Status.processing)
                  (fun x => (setStatusL x Status.timedOut).1) s.queues }, 1)
    else
      (s, 0)
  | [] =>
    match s.queues with
    | [] => (s, 0)
    | _ :: _ => (s, 1)

/-- `buildInfo` (src/queue.js:265-275): each function-valued entry is
called; the model carries already-evaluated string entries, so this is
a copy. -/
def buildInfo (info : List (String × String)) : List (String × String) := info

/-- The status snapshot (src/queue.js:195-210). -/
structure StatusSnap where
  info : List (String × String)
  time : Int
  total : Nat
  queue : Nat
  current : Option String := none
  last : Option LogEntry := none
deriving DecidableEq

/-- `getStatus` (src/queue.js:195-210): start time, history size,
pending size; `current` joins the display strings of all PROCESSING
history items with the HTML line break when there are any; `last` is
the log of the recorded last item when present. -/
def getStatus (s : DequeueState) : StatusSnap :=
  let base : StatusSnap :=
    { info := buildInfo s.info, time := s.time,
      total := s.queues.length, queue := s.pending.length }
  let processing :=
    (s.queues.filter (fun q => q.status = Status.processing)).map itemToString
  let base :=
    if processing = [] then base
    else { base with current := some (joinWith "<br/>" processing) }
  match s.last with
  | some q => { base with last := some (getLogEntry q) }
  | none => base

/-- The module-level singleton slot `dequeue` (src/queue.js:34). -/
structure ProcState where
  dequeue : Option DequeueState

/-- `createDequeuer` (src/queue.js:476-481): create the singleton when
absent, else keep it. -/
def createDequeuer (now : Int) (p : ProcState) : ProcState :=
  match p.dequeue with
  | some _ => p
  | none => { dequeue := some (initDequeue now) }

/-- `addQueue` (src/queue.js:483-488): throw when no dequeuer exists,
else delegate to the singleton's `add`. -/
def SiapQueue.addQueue (now : Int) (q : QItem) (p : ProcState) :
    Except String (ProcState × AddAck) :=
  match p.dequeue with
  | none => Except.error "No dequeue instance has been created!"
  | some d =>
    let r := SiapDequeue.add now q d
    Except.ok ({ dequeue := some r.1 }, r.2)

/-- A dispatch-order precedence statement over the pending list: the
runner pops the head first, so a lower index dispatches earlier. -/
def precedesIn (l : List QItem) (a b : QItem) : Prop :=
  ∃ i j : Nat, i < j ∧ l[i]? = some a ∧ l[j]? = some b

/-- Concrete fixture: the spec's scenario item with `data.timeout = 200`
that started at time 0 and is still PROCESSING. -/
def pollItem : QItem :=
  { type := QType.spp, id := some "q1", status := Status.processing,
    time := some 0, data := some { fields := [], timeout := some 200 } }

/-- Concrete fixture: a dispatcher whose history holds just `pollItem`. -/
def pollState : DequeueState :=
  { time := 0, queues := [pollItem], pending := [], last := none,
    timeout := 600000, retry := 3, info := [] }

/-- Concrete fixtures for status snapshots: two PROCESSING items and a
finished non-callback item recorded as last. -/
def statusItemA : QItem :=
  { type := QType.spp, id := some "i1", status := Status.processing }

def statusItemB : QItem :=
  { type := QType.spp, id := some "i2", status := Status.processing }

def statusItemDone : QItem :=
  { type := QType.spp, id := some "i0", status := Status.done,
    result := some (QResult.val "r") }

def statusState : DequeueState :=
  { time := 5, queues := [statusItemA, statusItemB], pending := [statusItemA],
    last := some statusItemDone, timeout := 600000, retry := 3, info := [] }

@[simp] theorem setStatusL_fst (q : QItem) (s : Status) :
    (setStatusL q s).1 = { q with status := s } := by
  unfold setStatusL
  split
  · next h => cases q; simp_all
  · rfl

@[simp] theorem startItem_status (now : Int) (q : QItem) :
    (startItem now q).status = Status.processing := by
  simp [startItem, setTime]

@[simp] theorem startItem_retry (now : Int) (q : QItem) :
    (startItem now q).retry = q.retry := by
  simp [startItem, setTime]

@[simp] theorem startItem_retryCount (now : Int) (q : QItem) :
    (startItem now q).retryCount = q.retryCount := by
  simp [startItem, setTime]

@[simp] theorem doneItem_status (r : QResult) (q : QItem) :
    (doneItem r q).status = Status.done := by
  unfold doneItem setResultL
  split <;> simp_all

@[simp] theorem doneItem_result (r : QResult) (q : QItem) :
    (doneItem r q).result = some r := by
  unfold doneItem setResultL
  split <;> simp_all

@[simp] theorem errorItem_status (r : QResult) (q : QItem) :
    (errorItem r q).status = Status.error := by
  unfold errorItem setResultL
  split <;> simp_all

@[simp] theorem errorItem_result (r : QResult) (q : QItem) :
    (errorItem r q).result = some r := by
  unfold errorItem setResultL
  split <;> simp_all

@[simp] theorem errorItem_retryCount (r : QResult) (q : QItem) :
    (errorItem r q).retryCount = q.retryCount := by
  unfold errorItem setResultL
  split <;> simp_all

/-- C9: for every item, setting the current status again is a no-op
with no log side effect; likewise setting the current result again; the
result is re-assigned (with its log line) exactly when the new value
differs from the stored one. -/
theorem c9_set_idempotent (q : QItem) (st : Status) (r : QResult)
    (hst : q.status = st) (hr : q.result = some r) :
    setStatusL q st = (q, false) ∧
    setResultL q r = (q, false) ∧
    (∀ (q' : QItem) (r' : QResult), q'.result ≠ some r' →
      setResultL q' r' = ({ q' with result := some r' }, true)) := by
  refine ⟨?_, ?_, ?_⟩
  · simp [setStatusL, hst]
  · simp [setResultL, hr]
  · intro q' r' h
    simp [setResultL, h]

theorem c9_set_idempotent_witness :
    setStatusL { type := QType.spp, status := Status.done,
                 result := some (QResult.val "v") } Status.done =
      ({ type := QType.spp, status := Status.done,
         result := some (QResult.val "v") }, false) ∧
    setResultL { type := QType.spp, status := Status.done,
                 result := some (QResult.val "v") } (QResult.val "v") =
      ({ type := QType.spp, status := Status.done,
         result := some (QResult.val "v") }, false) ∧
    (∀ (q' : QItem) (r' : QResult), q'.result ≠ some r' →
      setResultL q' r' = ({ q' with result := some r' }, true)) :=
  c9_set_idempotent
    { type := QType.spp, status := Status.done, result := some (QResult.val "v") }
    Status.done (QResult.val "v") rfl rfl

/-- C7 counterexample: with `maps` unset, the field resolver yields
"X" for the data key "a", yet `getMappedData "a"` returns nothing —
the name is not treated as a direct data key. -/
theorem c7_maps_unset_counterexample :
    getDataValue
      (itemFields { type := QType.spp, data := some { fields := [("a", "X")] }, maps := none })
      2 "a" = some "X" ∧
    getMappedData { type := QType.spp, data := some { fields := [("a", "X")] }, maps := none }
      2 "a" = none :=
  ⟨rfl, rfl⟩

/-- C7 amended: for every item whose maps field is unset,
`getMappedData` returns nothing (undefined) for every name — there is
no fallback that treats the name directly as a data key. -/
theorem c7_maps_unset_amended (q : QItem) (fuel : Nat) (name : String)
    (h : q.maps = none) :
    getMappedData q fuel name = none := by
  simp [getMappedData, getMap, h]

theorem c7_maps_unset_amended_witness :
    getMappedData { type := QType.spp, data := some { fields := [("a", "X")] } } 2 "a" = none :=
  c7_maps_unset_amended
    { type := QType.spp, data := some { fields := [("a", "X")] } } 2 "a" rfl

/-- C10: `addQueue` before any `createDequeuer` call throws
"No dequeue instance has been created!" and records nothing; once the
singleton exists, `addQueue` returns exactly the singleton's `add`
acknowledgement.  `createDequeuer` creates the singleton when absent
and is a no-op afterwards. -/
theorem c10_addQueue_singleton (now tc : Int) (q : QItem) (p : ProcState)
    (d : DequeueState) (hd : p.dequeue = some d) :
    SiapQueue.addQueue now q { dequeue := none } =
      Except.error "No dequeue instance has been created!" ∧
    (∀ (st : ProcState) (ack : AddAck),
      SiapQueue.addQueue now q { dequeue := none } ≠ Except.ok (st, ack)) ∧
    SiapQueue.addQueue now q p =
      Except.ok ({ dequeue := some (SiapDequeue.add now q d).1 }, (SiapDequeue.add now q d).2) ∧
    createDequeuer tc { dequeue := none } = { dequeue := some (initDequeue tc) } ∧
    createDequeuer tc p = p := by
  refine ⟨rfl, ?_, ?_, rfl, ?_⟩
  · intro st ack h
    simp [SiapQueue.addQueue] at h
  · simp [SiapQueue.addQueue, hd]
  · simp [createDequeuer, hd]

theorem c10_addQueue_singleton_witness :
    SiapQueue.addQueue 5 { type := QType.spp, id := some "q1" } { dequeue := none } =
      Except.error "No dequeue instance has been created!" ∧
    (∀ (st : ProcState) (ack : AddAck),
      SiapQueue.addQueue 5 { type := QType.spp, id := some "q1" } { dequeue := none } ≠
        Except.ok (st, ack)) ∧
    SiapQueue.addQueue 5 { type := QType.spp, id := some "q1" }
        { dequeue := some (initDequeue 0) } =
      Except.ok ({ dequeue := some (SiapDequeue.add 5 { type := QType.spp, id := some "q1" }
                    (initDequeue 0)).1 },
                 (SiapDequeue.add 5 { type := QType.spp, id := some "q1" } (initDequeue 0)).2) ∧
    createDequeuer 7 { dequeue := none } = { dequeue := some (initDequeue 7) } ∧
    createDequeuer 7 { dequeue := some (initDequeue 0) } = { dequeue := some (initDequeue 0) } :=
  c10_addQueue_singleton 5 7 { type := QType.spp, id := some "q1" }
    { dequeue := some (initDequeue 0) } (initDequeue 0) rfl

/-- C2: `add` inserts at the head of the pending list exactly when the
item's type is CALLBACK (priority insert), so a CALLBACK item submitted
while non-callback items are pending dispatches (pops) before all of
them, while a non-callback item is appended, preserving submission
order. -/
theorem c2_callback_priority (now : Int) (s : DequeueState) (c x : QItem)
    (hc : c.type = QType.callback) (hx : x.type ≠ QType.callback)
    (hcid : idAbsent c = false) (hxid : idAbsent x = false)
    (hp : ∀ p ∈ s.pending, p.type ≠ QType.callback) :
    (SiapDequeue.add now c s).1.pending = c :: s.pending ∧
    (SiapDequeue.add now x s).1.pending = s.pending ++ [x] ∧
    c ∉ s.pending ∧
    (∀ p ∈ s.pending, precedesIn (SiapDequeue.add now c s).1.pending c p) := by
  have h1 : (SiapDequeue.add now c s).1.pending = c :: s.pending := by
    simp [SiapDequeue.add, hcid, runnerEnqueue, hc]
  have h2 : (SiapDequeue.add now x s).1.pending = s.pending ++ [x] := by
    simp [SiapDequeue.add, hxid, runnerEnqueue, hx]
  refine ⟨h1, h2, ?_, ?_⟩
  · intro hmem
    exact hp c hmem hc
  · intro p hmem
    obtain ⟨j, hj⟩ := List.getElem?_of_mem hmem
    exact ⟨0, j + 1, by omega, by simp [h1], by simp [h1, hj]⟩

theorem c2_callback_priority_witness :
    (SiapDequeue.add 0 { type := QType.callback, id := some "c1" }
        { pending := [{ type := QType.spp, id := some "d1" }] }).1.pending =
      { type := QType.callback, id := some "c1" } ::
        [{ type := QType.spp, id := some "d1" }] ∧
    (SiapDequeue.add 0 { type := QType.captcha, id := some "x1" }
        { pending := [{ type := QType.spp, id := some "d1" }] }).1.pending =
      [{ type := QType.spp, id := some "d1" }] ++ [{ type := QType.captcha, id := some "x1" }] ∧
    ({ type := QType.callback, id := some "c1" } : QItem) ∉
      [({ type := QType.spp, id := some "d1" } : QItem)] ∧
    (∀ p ∈ [({ type := QType.spp, id := some "d1" } : QItem)],
      precedesIn (SiapDequeue.add 0 { type := QType.callback, id := some "c1" }
          { pending := [{ type := QType.spp, id := some "d1" }] }).1.pending
        { type := QType.callback, id := some "c1" } p) :=
  c2_callback_priority 0 { pending := [{ type := QType.spp, id := some "d1" }] }
    { type := QType.callback, id := some "c1" } { type := QType.captcha, id := some "x1" }
    rfl (by decide) rfl rfl
    (by intro p hmem; rw [List.mem_singleton] at hmem; subst hmem; decide)

/-- C4 counterexample: an item already finalized as TIMED_OUT whose
abandoned consumer call later succeeds is handed to the `success`
closure, which sets its status to DONE and records the result — the
eventual settlement is not ignored and the status does change. -/
theorem c4_late_settlement_counterexample :
    (successHandler "ok" { type := QType.spp, id := some "x", status := Status.timedOut }
        (initDequeue 0)).1.status = Status.done ∧
    Status.done ≠ Status.timedOut ∧
    (successHandler "ok" { type := QType.spp, id := some "x", status := Status.timedOut }
        (initDequeue 0)).1.result = some (QResult.val "ok") ∧
    ({ type := QType.spp, id := some "x", status := Status.timedOut } : QItem).result = none := by
  refine ⟨?_, by decide, ?_, rfl⟩
  · simp [successHandler]
  · simp [successHandler]

/-- C4 amended: the dispatcher's operations move an item forward along
NEW → PROCESSING → DONE/ERROR (SKIPPED may be assigned while NEW), but
a TIMED_OUT item is not insulated from its abandoned in-flight consumer
call: a late success settlement sets it to DONE and records the result,
and a late non-retried failure sets it to ERROR and records the error. -/
theorem c4_transitions_amended (now : Int) (qn qp qt : QItem) (res msg : String)
    (rb : Bool) (s : DequeueState)
    (_hn : qn.status = Status.new) (_hpstat : qp.status = Status.processing)
    (_htq : qt.status = Status.timedOut) :
    (startItem now qn).status = Status.processing ∧
    (successHandler res qp s).1.status = Status.done ∧
    (failHandler rb msg qp s).1.status = Status.error ∧
    (setStatusL qn Status.skipped).1.status = Status.skipped ∧
    (successHandler res qt s).1.status = Status.done ∧
    (successHandler res qt s).1.result = some (QResult.val res) ∧
    (failHandler rb msg qt s).1.status = Status.error ∧
    (failHandler rb msg qt s).1.result = some (QResult.err rb msg) := by
  refine ⟨by simp, ?_, ?_, by simp, ?_, ?_, ?_, ?_⟩ <;>
    simp [successHandler, failHandler]

theorem c4_transitions_amended_witness :
    (startItem 3 { type := QType.spp }).status = Status.processing ∧
    (successHandler "v" { type := QType.spp, status := Status.processing }
        (initDequeue 0)).1.status = Status.done ∧
    (failHandler false "m" { type := QType.spp, status := Status.processing }
        (initDequeue 0)).1.status = Status.error ∧
    (setStatusL { type := QType.spp } Status.skipped).1.status = Status.skipped ∧
    (successHandler "v" { type := QType.spp, status := Status.timedOut }
        (initDequeue 0)).1.status = Status.done ∧
    (successHandler "v" { type := QType.spp, status := Status.timedOut }
        (initDequeue 0)).1.result = some (QResult.val "v") ∧
    (failHandler false "m" { type := QType.spp, status := Status.timedOut }
        (initDequeue 0)).1.status = Status.error ∧
    (failHandler false "m" { type := QType.spp, status := Status.timedOut }
        (initDequeue 0)).1.result = some (QResult.err false "m") :=
  c4_transitions_amended 3 { type := QType.spp }
    { type := QType.spp, status := Status.processing }
    { type := QType.spp, status := Status.timedOut }
    "v" "m" false (initDequeue 0) rfl rfl rfl

theorem updateFirst_mem_of_filter_head {α : Type} (p : α → Bool) (f : α → α)
    (l : List α) (q : α) (rest : List α)
    (h : l.filter p = q :: rest) : f q ∈ updateFirst p f l := by
  induction l with
  | nil => simp at h
  | cons x xs ih =>
    rw [List.filter_cons] at h
    by_cases hx : p x
    · simp only [hx, if_pos] at h
      obtain ⟨hxq, -⟩ := List.cons_eq_cons.mp h
      subst hxq
      simp [updateFirst, hx]
    · simp only [hx, Bool.false_eq_true, if_neg, not_false_eq_true] at h
      simp only [updateFirst, hx, Bool.false_eq_true, if_neg, not_false_eq_true,
        List.mem_cons]
      exact Or.inr (ih h)

/-- C3: on a poll tick, the earliest PROCESSING history item whose
elapsed time exceeds its effective timeout (its own `data.timeout` when
defined, else the dispatcher default, which the constructor sets to
600000 ms) is set TIMED_OUT, and advance is triggered once. -/
theorem c3_poll_timeout (s : DequeueState) (now t0 : Int) (q : QItem) (rest : List QItem)
    (hproc : s.queues.filter (fun x => x.status = Status.processing) = q :: rest)
    (ht : q.time = some t0)
    (htpos : 0 < effTimeout s.timeout q)
    (helapsed : effTimeout s.timeout q < now - t0) :
    (pollTick now s).2 = 1 ∧
    { q with status := Status.timedOut } ∈ (pollTick now s).1.queues ∧
    (∀ (d : DataMap) (t : Int), q.data = some d → d.timeout = some t →
      effTimeout s.timeout q = t) ∧
    (q.data = none → effTimeout s.timeout q = s.timeout) ∧
    (initDequeue now).timeout = 600000 := by
  have h2 : (pollTick now s).2 = 1 := by
    unfold pollTick
    rw [hproc]
    simp only [ht, Option.getD_some]
    rw [if_pos ⟨htpos, helapsed⟩]
  have h1 : (pollTick now s).1.queues =
      updateFirst (fun x => x.status = Status.processing)
        (fun x => (setStatusL x Status.timedOut).1) s.queues := by
    unfold pollTick
    rw [hproc]
    simp only [ht, Option.getD_some]
    rw [if_pos ⟨htpos, helapsed⟩]
  refine ⟨h2, ?_, ?_, ?_, rfl⟩
  · rw [h1]
    have hmem := updateFirst_mem_of_filter_head (fun x => x.status = Status.processing)
      (fun x => (setStatusL x Status.timedOut).1) s.queues q rest hproc
    simpa using hmem
  · intro d t hd hdt
    simp [effTimeout, hd, hdt]
  · intro hd
    simp [effTimeout, hd]

theorem c3_poll_timeout_witness :
    (pollTick 201 pollState).2 = 1 ∧
    { pollItem with status := Status.timedOut } ∈ (pollTick 201 pollState).1.queues ∧
    (∀ (d : DataMap) (t : Int), pollItem.data = some d → d.timeout = some t →
      effTimeout pollState.timeout pollItem = t) ∧
    (pollItem.data = none → effTimeout pollState.timeout pollItem = pollState.timeout) ∧
    (initDequeue 201).timeout = 600000 :=
  c3_poll_timeout pollState 201 0 pollItem [] rfl rfl (by decide) (by decide)

@[simp] theorem bumpRetry_startItem_getD (now : Int) (q : QItem) :
    (bumpRetry (startItem now q)).retryCount.getD 0 = q.retryCount.getD 0 + 1 := by
  simp [bumpRetry]

@[simp] theorem bumpRetry_status (q : QItem) : (bumpRetry q).status = q.status := rfl

@[simp] theorem bumpRetry_retry (q : QItem) : (bumpRetry q).retry = q.retry := rfl

theorem doQueueRun_allFail (retryCeil : Nat) (m : Nat → String) (now : Int) :
    ∀ (n : Nat) (q : QItem) (a : Nat), retryCeil - q.retryCount.getD 0 = n →
      q.status ≠ Status.skipped → q.retry = true →
      q.retryCount.getD 0 ≤ retryCeil →
      (doQueueRun retryCeil (fun i => Settle.fail true (m i)) now a q).2 =
        a + (retryCeil + 1 - q.retryCount.getD 0) ∧
      (doQueueRun retryCeil (fun i => Settle.fail true (m i)) now a q).1.status =
        Status.error ∧
      (doQueueRun retryCeil (fun i => Settle.fail true (m i)) now a q).1.retryCount =
        some (retryCeil + 1) := by
  intro n
  induction n with
  | zero =>
    intro q a hn hs hr hle
    have hrc : q.retryCount.getD 0 = retryCeil := by omega
    have hcond : ¬(true = true ∧ q.retry = true ∧
        (bumpRetry (startItem now q)).retryCount.getD 0 ≤ retryCeil) := by
      rintro ⟨-, -, hX⟩
      rw [bumpRetry_startItem_getD] at hX
      omega
    unfold doQueueRun
    rw [if_neg hs]
    dsimp only
    rw [dif_neg hcond]
    refine ⟨by simp; omega, by simp, ?_⟩
    rw [errorItem_retryCount]
    simp [bumpRetry, hrc]
  | succ k ih =>
    intro q a hn hs hr hle
    have hlt : q.retryCount.getD 0 < retryCeil := by omega
    have hcond : (true = true ∧ q.retry = true ∧
        (bumpRetry (startItem now q)).retryCount.getD 0 ≤ retryCeil) :=
      ⟨rfl, hr, by rw [bumpRetry_startItem_getD]; omega⟩
    unfold doQueueRun
    rw [if_neg hs]
    dsimp only
    rw [dif_pos hcond]
    have hq2 := ih (bumpRetry (startItem now q)) (a + 1)
      (by simp; omega)
      (by simp)
      (by simp [hr])
      (by simp; omega)
    refine ⟨?_, hq2.2.1, hq2.2.2⟩
    rw [hq2.1]
    simp only [bumpRetry_startItem_getD]
    omega

/-- C1 counterexample: with the default ceiling 3 and every attempt
failing retryably, the item is attempted 4 times but its final
`retryCount` is 4, not the number of retries performed (3 = attempts
minus one) — the final failed attempt also increments the counter. -/
theorem c1_retryCount_counterexample :
    (doQueueRun 3 (fun _ => Settle.fail true "transient") 0 0
      { type := QType.spp, retry := true }).2 = 4 ∧
    (doQueueRun 3 (fun _ => Settle.fail true "transient") 0 0
        { type := QType.spp, retry := true }).1.retryCount ≠
      some ((doQueueRun 3 (fun _ => Settle.fail true "transient") 0 0
        { type := QType.spp, retry := true }).2 - 1) := by
  have h := doQueueRun_allFail 3 (fun _ => "transient") 0 3
    { type := QType.spp, retry := true } 0 rfl (by decide) rfl (by decide)
  refine ⟨by rw [h.1]; rfl, ?_⟩
  rw [h.1, h.2.2]
  decide

/-- C1 amended: an item with `retry = true` whose consumer call fails
retryably on every attempt is re-run while `retryCount` stays at or
under the ceiling (the constructor sets the default ceiling to 3) and
finalizes as ERROR after exactly `1 + ceiling` attempts; its final
`retryCount` is `1 + ceiling` — one more than the number of retries
performed, because the last failed attempt also increments it.  A
non-retryable failure, or `retry = false`, yields ERROR after the
first attempt. -/
theorem c1_retry_amended (ceil : Nat) (m : Nat → String) (now : Int) (q : QItem)
    (hstat : q.status = Status.new) (hretry : q.retry = true)
    (hrc : q.retryCount = none) :
    (doQueueRun ceil (fun i => Settle.fail true (m i)) now 0 q).2 = ceil + 1 ∧
    (doQueueRun ceil (fun i => Settle.fail true (m i)) now 0 q).1.status =
      Status.error ∧
    (doQueueRun ceil (fun i => Settle.fail true (m i)) now 0 q).1.retryCount =
      some (ceil + 1) ∧
    (∀ (q' : QItem) (oc : Nat → Settle) (msg : String), q'.status = Status.new →
      oc 0 = Settle.fail false msg →
      (doQueueRun ceil oc now 0 q').2 = 1 ∧
      (doQueueRun ceil oc now 0 q').1.status = Status.error) ∧
    (∀ (q' : QItem) (oc : Nat → Settle) (rb : Bool) (msg : String),
      q'.status = Status.new → q'.retry = false → oc 0 = Settle.fail rb msg →
      (doQueueRun ceil oc now 0 q').2 = 1 ∧
      (doQueueRun ceil oc now 0 q').1.status = Status.error) ∧
    (initDequeue now).retry = 3 := by
  have h := doQueueRun_allFail ceil m now (ceil - q.retryCount.getD 0) q 0 rfl
    (by rw [hstat]; decide) hretry (by simp [hrc])
  refine ⟨?_, h.2.1, ?_, ?_, ?_, rfl⟩
  · rw [h.1, hrc]
    simp
  · exact h.2.2
  · intro q' oc msg hq' hoc
    have hs : q'.status ≠ Status.skipped := by rw [hq']; decide
    have hcond : ¬(false = true ∧ q'.retry = true ∧
        (bumpRetry (startItem now q')).retryCount.getD 0 ≤ ceil) := by
      rintro ⟨hcf, -⟩
      cases hcf
    unfold doQueueRun
    rw [if_neg hs, hoc]
    dsimp only
    rw [dif_neg hcond]
    exact ⟨rfl, by simp⟩
  · intro q' oc rb msg hq' hre hoc
    have hs : q'.status ≠ Status.skipped := by rw [hq']; decide
    have hcond : ¬(rb = true ∧ q'.retry = true ∧
        (bumpRetry (startItem now q')).retryCount.getD 0 ≤ ceil) := by
      rintro ⟨-, hrt, -⟩
      rw [hre] at hrt
      cases hrt
    unfold doQueueRun
    rw [if_neg hs, hoc]
    dsimp only
    rw [dif_neg hcond]
    exact ⟨rfl, by simp⟩

theorem c1_retry_amended_witness :
    (doQueueRun 3 (fun _ => Settle.fail true "e") 7 0
      { type := QType.spp, retry := true }).2 = 3 + 1 ∧
    (doQueueRun 3 (fun _ => Settle.fail true "e") 7 0
      { type := QType.spp, retry := true }).1.status = Status.error ∧
    (doQueueRun 3 (fun _ => Settle.fail true "e") 7 0
      { type := QType.spp, retry := true }).1.retryCount = some (3 + 1) ∧
    (∀ (q' : QItem) (oc : Nat → Settle) (msg : String), q'.status = Status.new →
      oc 0 = Settle.fail false msg →
      (doQueueRun 3 oc 7 0 q').2 = 1 ∧
      (doQueueRun 3 oc 7 0 q').1.status = Status.error) ∧
    (∀ (q' : QItem) (oc : Nat → Settle) (rb : Bool) (msg : String),
      q'.status = Status.new → q'.retry = false → oc 0 = Settle.fail rb msg →
      (doQueueRun 3 oc 7 0 q').2 = 1 ∧
      (doQueueRun 3 oc 7 0 q').1.status = Status.error) ∧
    (initDequeue 7).retry = 3 :=
  c1_retry_amended 3 (fun _ => "e") 7 { type := QType.spp, retry := true } rfl rfl rfl

theorem hexChar_mem (n : Nat) : hexChar n ∈ hexChars := by
  unfold hexChar
  by_cases h : n < 16
  · interval_cases n <;> decide
  · have h16 : hexChars.length ≤ n := by
      rw [show hexChars.length = 16 from rfl]
      omega
    rw [List.getD_eq_default _ _ h16]
    decide

theorem toHex_length (bs : List Nat) : (toHex bs).length = 2 * bs.length := by
  induction bs with
  | nil => rfl
  | cons b bs ih =>
    show (hexChar (b / 16) :: hexChar (b % 16) :: toHex bs).length = 2 * (b :: bs).length
    simp only [List.length_cons, ih]
    omega

theorem toHex_mem (bs : List Nat) : ∀ c ∈ toHex bs, c ∈ hexChars := by
  induction bs with
  | nil =>
    intro c hc
    cases hc
  | cons b bs ih =>
    intro c hc
    have he : toHex (b :: bs) = hexChar (b / 16) :: hexChar (b % 16) :: toHex bs := rfl
    rw [he] at hc
    rcases List.mem_cons.mp hc with h | hc2
    · rw [h]
      exact hexChar_mem _
    rcases List.mem_cons.mp hc2 with h | h3
    · rw [h]
      exact hexChar_mem _
    · exact ih c h3

theorem sha1_length (m : List Nat) : (sha1 m).length = 20 := rfl

theorem genId_length (now : Int) : (genId now).length = 8 := by
  have h40 : (toHex (sha1 (asciiBytes (toString now)))).length = 40 := by
    rw [toHex_length, sha1_length]
  show ((toHex (sha1 (asciiBytes (toString now)))).take 8).length = 8
  rw [List.length_take, h40]
  decide

theorem genId_chars (now : Int) : ∀ c ∈ (genId now).data, c ∈ hexChars := by
  intro c hc
  have hc' : c ∈ (toHex (sha1 (asciiBytes (toString now)))).take 8 := hc
  exact toHex_mem _ c (List.take_subset _ _ hc')

/-- C5 counterexample: `genId` depends only on the current millisecond
timestamp, so two add calls for different items in the same millisecond
are assigned the same id — ids are not unique per add-call. -/
theorem c5_id_not_unique_counterexample :
    (SiapDequeue.add 1000 { type := QType.spp } (initDequeue 0)).2.id =
      (SiapDequeue.add 1000 { type := QType.captcha } (initDequeue 0)).2.id ∧
    QType.spp ≠ QType.captcha :=
  ⟨rfl, by decide⟩

/-- C5 amended: `add` on an item without an id assigns exactly once the
8-character lowercase-hexadecimal id obtained by truncating the SHA-1
hex digest of the millisecond timestamp, and acknowledges
`{status: 'queued', id}`; an item that already has an id keeps it.
Ids are, however, not unique per add-call: they depend only on the
timestamp (see the counterexample). -/
theorem c5_genid_amended (now : Int) (q : QItem) (s : DequeueState)
    (h : idAbsent q = true) :
    (SiapDequeue.add now q s).2 = { status := "queued", id := some (genId now) } ∧
    (SiapDequeue.add now q s).1.queues = s.queues ++ [{ q with id := some (genId now) }] ∧
    (genId now).length = 8 ∧
    (∀ c ∈ (genId now).data, c ∈ hexChars) ∧
    (∀ (q2 : QItem) (s2 : DequeueState), idAbsent q2 = false →
      (SiapDequeue.add now q2 s2).2.id = q2.id) := by
  refine ⟨?_, ?_, genId_length now, genId_chars now, ?_⟩
  · simp [SiapDequeue.add, h]
  · simp [SiapDequeue.add, h]
  · intro q2 s2 h2
    simp [SiapDequeue.add, h2]

theorem c5_genid_amended_witness :
    (SiapDequeue.add 123 { type := QType.spp } (initDequeue 0)).2 =
      { status := "queued", id := some (genId 123) } ∧
    (SiapDequeue.add 123 { type := QType.spp } (initDequeue 0)).1.queues =
      (initDequeue 0).queues ++ [{ ({ type := QType.spp } : QItem) with id := some (genId 123) }] ∧
    (genId 123).length = 8 ∧
    (∀ c ∈ (genId 123).data, c ∈ hexChars) ∧
    (∀ (q2 : QItem) (s2 : DequeueState), idAbsent q2 = false →
      (SiapDequeue.add 123 q2 s2).2.id = q2.id) :=
  c5_genid_amended 123 { type := QType.spp } (initDequeue 0) rfl

theorem stringMk_data (s : String) : String.mk s.data = s := rfl

theorem splitCharAux_not_mem (c : Char) (l : List Char) (acc : List Char) (h : c ∉ l) :
    splitCharAux c l acc = [String.mk (acc.reverse ++ l)] := by
  induction l generalizing acc with
  | nil => simp [splitCharAux]
  | cons x xs ih =>
    have hx : ¬(x = c) := fun he => h (he ▸ List.mem_cons_self x xs)
    have hxs : c ∉ xs := fun hm => h (List.mem_cons_of_mem x hm)
    simp only [splitCharAux, hx, if_false, ih (x :: acc) hxs, List.reverse_cons,
      List.append_assoc, List.singleton_append]

theorem splitCharAux_sep (c : Char) (l1 l2 : List Char) (acc : List Char) (h : c ∉ l1) :
    splitCharAux c (l1 ++ c :: l2) acc =
      String.mk (acc.reverse ++ l1) :: splitCharAux c l2 [] := by
  induction l1 generalizing acc with
  | nil => simp [splitCharAux]
  | cons x xs ih =>
    have hx : ¬(x = c) := fun he => h (he ▸ List.mem_cons_self x xs)
    have hxs : c ∉ xs := fun hm => h (List.mem_cons_of_mem x hm)
    rw [List.cons_append]
    simp only [splitCharAux]
    rw [if_neg hx, ih (x :: acc) hxs]
    simp [List.reverse_cons, List.append_assoc]

theorem jsSplitChar_joinWith (c : Char) (sc : String) (hsc : sc.data = [c])
    (parts : List String) (hne : parts ≠ []) (h : ∀ p ∈ parts, c ∉ p.data) :
    jsSplitChar c (joinWith sc parts) = parts := by
  induction parts with
  | nil => exact absurd rfl hne
  | cons x xs ih =>
    match xs with
    | [] =>
      show jsSplitChar c x = [x]
      unfold jsSplitChar
      rw [splitCharAux_not_mem c x.data [] (h x (List.mem_cons_self x []))]
      simp [stringMk_data]
    | y :: t =>
      show jsSplitChar c (x ++ sc ++ joinWith sc (y :: t)) = x :: y :: t
      unfold jsSplitChar
      rw [String.data_append, String.data_append, hsc]
      rw [List.append_assoc, List.singleton_append]
      rw [splitCharAux_sep c x.data _ [] (h x (List.mem_cons_self x (y :: t)))]
      have ihr := ih (by simp) (fun p hp => h p (List.mem_cons_of_mem x hp))
      unfold jsSplitChar at ihr
      rw [List.reverse_nil, List.nil_append, stringMk_data, ihr]

theorem joinWith_data_mem (c : Char) (sep : String) (parts : List String)
    (hmem : c ∈ (joinWith sep parts).data) :
    c ∈ sep.data ∨ ∃ p ∈ parts, c ∈ p.data := by
  induction parts with
  | nil => cases hmem
  | cons x xs ih =>
    match xs with
    | [] =>
      exact Or.inr ⟨x, List.mem_cons_self x [], hmem⟩
    | y :: t =>
      rw [show joinWith sep (x :: y :: t) = x ++ sep ++ joinWith sep (y :: t) from rfl,
        String.data_append, String.data_append] at hmem
      rcases List.mem_append.mp hmem with h1 | h2
      · rcases List.mem_append.mp h1 with ha | hb
        · exact Or.inr ⟨x, List.mem_cons_self x (y :: t), ha⟩
        · exact Or.inl hb
      · rcases ih h2 with hs | ⟨p, hp, hcp⟩
        · exact Or.inl hs
        · exact Or.inr ⟨p, List.mem_cons_of_mem x hp, hcp⟩

theorem charIndexFrom_sep (c : Char) (l1 l2 : List Char) (i : Nat) (h : c ∉ l1) :
    charIndexFrom (l1 ++ c :: l2) c i = some (i + l1.length) := by
  induction l1 generalizing i with
  | nil => simp [charIndexFrom]
  | cons x xs ih =>
    have hx : ¬(x = c) := fun he => h (he ▸ List.mem_cons_self x xs)
    have hxs : c ∉ xs := fun hm => h (List.mem_cons_of_mem x hm)
    rw [List.cons_append]
    show (if x = c then some i else charIndexFrom (xs ++ c :: l2) c (i + 1)) = _
    rw [if_neg hx, ih (i + 1) hxs]
    simp only [List.length_cons]
    exact congrArg some (by omega)

theorem jsIndexOf_tag (tag spec : String) (hne : tag.data ≠ []) (htag : (':' : Char) ∉ tag.data) :
    jsIndexOf (tag ++ ":" ++ spec) ':' > 0 := by
  unfold jsIndexOf
  rw [String.data_append, String.data_append,
    show (":" : String).data = [':'] from rfl, List.append_assoc, List.singleton_append]
  rw [charIndexFrom_sep ':' tag.data spec.data 0 htag]
  have : 0 < tag.data.length := List.length_pos.mpr hne
  simp only [Nat.zero_add]
  exact_mod_cast this

theorem jsSplitChar_tag (tag spec : String) (htag : (':' : Char) ∉ tag.data)
    (hspec : (':' : Char) ∉ spec.data) :
    jsSplitChar ':' (tag ++ ":" ++ spec) = [tag, spec] := by
  unfold jsSplitChar
  rw [String.data_append, String.data_append,
    show (":" : String).data = [':'] from rfl, List.append_assoc, List.singleton_append]
  rw [splitCharAux_sep ':' tag.data spec.data [] htag,
    splitCharAux_not_mem ':' spec.data [] hspec]
  simp [stringMk_data]



theorem data_stringMk (l : List Char) : (String.mk l).data = l := rfl

theorem replaceSkip_free (p0 : Char) (prest rep : List Char) (s rest : List Char)
    (hs : ∀ ch ∈ s, ch ≠ p0) :
    replaceSkip (p0 :: prest) rep (s ++ rest) 0 = s ++ replaceSkip (p0 :: prest) rep rest 0 := by
  induction s with
  | nil => rfl
  | cons x xs ih =>
    have hx : ¬(x = p0) := hs x (List.mem_cons_self x xs)
    have hxs : ∀ ch ∈ xs, ch ≠ p0 := fun ch hm => hs ch (List.mem_cons_of_mem x hm)
    rw [List.cons_append]
    simp only [replaceSkip]
    have hng : ¬((p0 :: prest).isPrefixOf (x :: (xs ++ rest)) = true) := by
      rw [List.isPrefixOf_iff_prefix, List.cons_prefix_cons]
      rintro ⟨he, -⟩
      exact hx he.symm
    rw [if_neg hng, ih hxs, List.cons_append]

theorem replaceSkip_skip (pat rep : List Char) (l rest : List Char) :
    replaceSkip pat rep (l ++ rest) l.length = replaceSkip pat rep rest 0 := by
  induction l with
  | nil => rfl
  | cons x xs ih =>
    rw [List.cons_append, List.length_cons]
    show replaceSkip pat rep (xs ++ rest) xs.length = _
    exact ih

theorem replaceSkip_hit (p0 : Char) (prest rep : List Char) (rest : List Char) :
    replaceSkip (p0 :: prest) rep ((p0 :: prest) ++ rest) 0 =
      rep ++ replaceSkip (p0 :: prest) rep rest 0 := by
  rw [List.cons_append]
  simp only [replaceSkip]
  rw [if_pos]
  · rw [show (p0 :: prest).length - 1 = prest.length from by simp, replaceSkip_skip]
  · exact List.isPrefixOf_iff_prefix.mpr ⟨rest, by simp⟩

theorem jsReplaceAll_eq (pat rep : String) (hp : pat.data ≠ []) (s : String) :
    jsReplaceAll s pat rep = String.mk (replaceSkip pat.data rep.data s.data 0) := by
  unfold jsReplaceAll
  split
  · next heq => exact absurd heq hp
  · rfl

theorem jsReplaceAll_global (pat rep : String) (hp : pat.data ≠ []) (segs : List String)
    (hfree : ∀ s ∈ segs, ∀ ch ∈ s.data, some ch ≠ pat.data.head?) :
    jsReplaceAll (joinWith pat segs) pat rep = joinWith rep segs := by
  obtain ⟨p0, ps, hps⟩ := List.exists_cons_of_ne_nil hp
  induction segs with
  | nil =>
    rw [show joinWith pat [] = "" from rfl, jsReplaceAll_eq pat rep hp]
    apply String.ext
    rw [data_stringMk, show ("" : String).data = [] from rfl]
    rfl
  | cons x xs ih =>
    have hx : ∀ ch ∈ x.data, ch ≠ p0 := by
      intro ch hm he
      exact hfree x (List.mem_cons_self x xs) ch hm (by rw [hps, he]; rfl)
    match xs with
    | [] =>
      rw [show joinWith pat [x] = x from rfl, show joinWith rep [x] = x from rfl]
      rw [jsReplaceAll_eq pat rep hp]
      apply String.ext
      rw [data_stringMk, hps]
      have hstep := replaceSkip_free p0 ps rep.data x.data [] hx
      simp only [List.append_nil, replaceSkip] at hstep
      exact hstep
    | y :: t =>
      have ihd := congrArg String.data
        (ih (fun p hp2 => hfree p (List.mem_cons_of_mem x hp2)))
      rw [jsReplaceAll_eq pat rep hp] at ihd
      rw [data_stringMk, hps] at ihd
      rw [show joinWith pat (x :: y :: t) = x ++ pat ++ joinWith pat (y :: t) from rfl,
        show joinWith rep (x :: y :: t) = x ++ rep ++ joinWith rep (y :: t) from rfl]
      rw [jsReplaceAll_eq pat rep hp]
      apply String.ext
      rw [data_stringMk, String.data_append, String.data_append, List.append_assoc, hps]
      rw [replaceSkip_free p0 ps rep.data x.data _ hx]
      rw [replaceSkip_hit p0 ps rep.data]
      rw [ihd]
      rw [String.data_append, String.data_append, List.append_assoc]

theorem jsTrim_space_left (s : String) : jsTrim (" " ++ s) = jsTrim s := by
  unfold jsTrim
  rw [String.data_append, show (" " : String).data = [' '] from rfl, List.singleton_append]
  rw [List.dropWhile_cons, if_pos (by decide)]

theorem jsTrim_space_right (s : String) : jsTrim (s ++ " ") = jsTrim s := by
  unfold jsTrim
  rw [String.data_append, show (" " : String).data = [' '] from rfl]
  rw [List.dropWhile_append]
  by_cases he : (s.data.dropWhile Char.isWhitespace).isEmpty
  · rw [if_pos he]
    rw [show List.dropWhile Char.isWhitespace [' '] = [] from by decide]
    rw [show s.data.dropWhile Char.isWhitespace = [] from by
      simpa [List.isEmpty_iff] using he]
  · rw [if_neg he]
    rw [List.reverse_append, show ([' '] : List Char).reverse = [' '] from rfl,
      List.singleton_append]
    rw [List.dropWhile_cons, if_pos (by decide)]


/-- C6: for every payload and every key of the form TYPE:SPEC not
literally present in the data, built from parts free of ':' and '|'
(so the splits are exact), the resolver evaluates the key as claimed:
CONCAT splits SPEC on '|', takes the first token as the separator,
recursively resolves each remaining token (trimmed) against the data,
and joins the resolved values with the separator; FORMAT takes the
first token as a template and substitutes the recursively resolved
values for the numbered placeholders, where one substitution step
replaces every occurrence of its placeholder (globally, shown for any
pattern over pattern-free segments), and trimming strips surrounding
whitespace. -/
theorem c6_resolver (fields : List (String × String)) (fuel : Nat)
    (sep template : String) (refs frefs : List String)
    (hc1 : ∀ p ∈ sep :: refs, (':' : Char) ∉ p.data)
    (hc2 : ∀ p ∈ sep :: refs, ('|' : Char) ∉ p.data)
    (hc3 : lookupField fields ("CONCAT:" ++ joinWith "|" (sep :: refs)) = none)
    (hf1 : ∀ p ∈ template :: frefs, (':' : Char) ∉ p.data)
    (hf2 : ∀ p ∈ template :: frefs, ('|' : Char) ∉ p.data)
    (hf3 : lookupField fields ("FORMAT:" ++ joinWith "|" (template :: frefs)) = none) :
    getDataValue fields (fuel + 1) ("CONCAT:" ++ joinWith "|" (sep :: refs)) =
      some (joinWith sep
        (refs.map (fun n => joinElem (getDataValue fields fuel (jsTrim n))))) ∧
    getDataValue fields (fuel + 1) ("FORMAT:" ++ joinWith "|" (template :: frefs)) =
      some (formatLoop (getDataValue fields fuel) template frefs 1) ∧
    (∀ (pat rep : String) (segs : List String), pat.data ≠ [] →
      (∀ s ∈ segs, ∀ ch ∈ s.data, some ch ≠ pat.data.head?) →
      jsReplaceAll (joinWith pat segs) pat rep = joinWith rep segs) ∧
    (∀ s : String, jsTrim (" " ++ s) = jsTrim s ∧ jsTrim (s ++ " ") = jsTrim s) := by
  have hspecC : (':' : Char) ∉ (joinWith "|" (sep :: refs)).data := by
    intro hmem
    rcases joinWith_data_mem ':' "|" (sep :: refs) hmem with h1 | ⟨p, hp, hcp⟩
    · exact absurd h1 (by decide)
    · exact hc1 p hp hcp
  have hspecF : (':' : Char) ∉ (joinWith "|" (template :: frefs)).data := by
    intro hmem
    rcases joinWith_data_mem ':' "|" (template :: frefs) hmem with h1 | ⟨p, hp, hcp⟩
    · exact absurd h1 (by decide)
    · exact hf1 p hp hcp
  have hkeyC : ("CONCAT:" ++ joinWith "|" (sep :: refs)) =
      ("CONCAT" ++ ":" ++ joinWith "|" (sep :: refs)) := by
    rw [show ("CONCAT:" : String) = "CONCAT" ++ ":" from by decide]
  have hkeyF : ("FORMAT:" ++ joinWith "|" (template :: frefs)) =
      ("FORMAT" ++ ":" ++ joinWith "|" (template :: frefs)) := by
    rw [show ("FORMAT:" : String) = "FORMAT" ++ ":" from by decide]
  have hidxC : jsIndexOf ("CONCAT:" ++ joinWith "|" (sep :: refs)) ':' > 0 := by
    rw [hkeyC]
    exact jsIndexOf_tag "CONCAT" _ (by decide) (by decide)
  have hidxF : jsIndexOf ("FORMAT:" ++ joinWith "|" (template :: frefs)) ':' > 0 := by
    rw [hkeyF]
    exact jsIndexOf_tag "FORMAT" _ (by decide) (by decide)
  have hsplitC : jsSplitChar ':' ("CONCAT:" ++ joinWith "|" (sep :: refs)) =
      ["CONCAT", joinWith "|" (sep :: refs)] := by
    rw [hkeyC]
    exact jsSplitChar_tag "CONCAT" _ (by decide) hspecC
  have hsplitF : jsSplitChar ':' ("FORMAT:" ++ joinWith "|" (template :: frefs)) =
      ["FORMAT", joinWith "|" (template :: frefs)] := by
    rw [hkeyF]
    exact jsSplitChar_tag "FORMAT" _ (by decide) hspecF
  have hsplitC2 : jsSplitChar '|' (joinWith "|" (sep :: refs)) = sep :: refs :=
    jsSplitChar_joinWith '|' "|" rfl (sep :: refs) (by simp) hc2
  have hsplitF2 : jsSplitChar '|' (joinWith "|" (template :: frefs)) = template :: frefs :=
    jsSplitChar_joinWith '|' "|" rfl (template :: frefs) (by simp) hf2
  have hstepC : getDataValue fields (fuel + 1) ("CONCAT:" ++ joinWith "|" (sep :: refs)) =
      some (getTranslatedValueAux (getDataValue fields fuel)
        ("CONCAT:" ++ joinWith "|" (sep :: refs))) := by
    simp only [getDataValue, hc3]
    rw [if_pos hidxC]
  have hstepF : getDataValue fields (fuel + 1) ("FORMAT:" ++ joinWith "|" (template :: frefs)) =
      some (getTranslatedValueAux (getDataValue fields fuel)
        ("FORMAT:" ++ joinWith "|" (template :: frefs))) := by
    simp only [getDataValue, hf3]
    rw [if_pos hidxF]
  refine ⟨?_, ?_, ?_, ?_⟩
  · rw [hstepC]
    refine congrArg some ?_
    simp only [getTranslatedValueAux, hsplitC]
    rw [if_true]
    simp only [hsplitC2]
  · rw [hstepF]
    refine congrArg some ?_
    simp only [getTranslatedValueAux, hsplitF]
    rw [if_true]
    simp only [hsplitF2]
    rw [if_neg (by decide : ¬("FORMAT" = "CONCAT"))]
  · exact fun pat rep segs hp hfree => jsReplaceAll_global pat rep hp segs hfree
  · exact fun s => ⟨jsTrim_space_left s, jsTrim_space_right s⟩


theorem c6_resolver_witness :
    getDataValue [("a", "X"), ("b", "Y")] (1 + 1) "CONCAT:,| a | b " = some "X,Y" ∧
    getDataValue [("a", "X"), ("b", "Y")] (1 + 1) "FORMAT:%1% and %2% and %1%|a|b" =
      some "X and Y and X" := by
  have h := c6_resolver [("a", "X"), ("b", "Y")] 1 "," "%1% and %2% and %1%"
    [" a ", " b "] ["a", "b"]
    (by decide) (by decide) (by decide) (by decide) (by decide) (by decide)
  obtain ⟨h1, h2, -, -⟩ := h
  constructor
  · rw [show ("CONCAT:" ++ joinWith "|" ("," :: [" a ", " b "])) = "CONCAT:,| a | b " from
      by decide] at h1
    rw [h1]
    decide
  · rw [show ("FORMAT:" ++ joinWith "|" ("%1% and %2% and %1%" :: ["a", "b"])) =
      "FORMAT:%1% and %2% and %1%|a|b" from by decide] at h2
    rw [h2]
    decide



/-- C8 counterexample: with two PROCESSING items, `getStatus` joins
their display strings with the HTML line-break tag "<br/>", which is
not the newline-joined string. -/
theorem c8_current_join_counterexample :
    (getStatus statusState).current = some "spp:i1<br/>spp:i2" ∧
    ("spp:i1<br/>spp:i2" : String) ≠ "spp:i1" ++ "\n" ++ "spp:i2" :=
  ⟨rfl, by decide⟩

/-- C8 amended: `getStatus` returns a snapshot with the process start
time, the total number of submitted items and the pending count; its
`current` field is present exactly when at least one history item is
PROCESSING and then holds their display strings joined with the HTML
line-break tag "<br/>" (not a literal newline); its `last` field is the
log entry of the recorded last item, which `setLastQueue` updates only
for finished non-callback items. -/
theorem c8_getStatus_amended (s : DequeueState) (q qc : QItem)
    (hq : q.type ≠ QType.callback) (hqc : qc.type = QType.callback) :
    (getStatus s).time = s.time ∧
    (getStatus s).total = s.queues.length ∧
    (getStatus s).queue = s.pending.length ∧
    ((getStatus s).current.isSome ↔
      (s.queues.filter (fun x => x.status = Status.processing)) ≠ []) ∧
    ((s.queues.filter (fun x => x.status = Status.processing)) ≠ [] →
      (getStatus s).current = some (joinWith "<br/>"
        ((s.queues.filter (fun x => x.status = Status.processing)).map itemToString))) ∧
    (getStatus s).last = Option.map getLogEntry s.last ∧
    (setLastQueue q s).last = some q ∧
    (setLastQueue qc s).last = s.last := by
  by_cases hf : s.queues.filter (fun x => x.status = Status.processing) = []
  · have hm : (s.queues.filter (fun x => x.status = Status.processing)).map itemToString = [] := by
      rw [hf, List.map_nil]
    unfold getStatus setLastQueue
    cases hl : s.last <;> simp [hm, hf, hq, hqc, hl]
  · have hm : (s.queues.filter (fun x => x.status = Status.processing)).map itemToString ≠ [] := by
      simpa [List.map_eq_nil_iff] using hf
    unfold getStatus setLastQueue
    cases hl : s.last <;> simp [hm, hf, hq, hqc, hl]

theorem c8_getStatus_amended_witness :
    (getStatus statusState).time = statusState.time ∧
    (getStatus statusState).total = statusState.queues.length ∧
    (getStatus statusState).queue = statusState.pending.length ∧
    ((getStatus statusState).current.isSome ↔
      (statusState.queues.filter (fun x => x.status = Status.processing)) ≠ []) ∧
    ((statusState.queues.filter (fun x => x.status = Status.processing)) ≠ [] →
      (getStatus statusState).current = some (joinWith "<br/>"
        ((statusState.queues.filter
          (fun x => x.status = Status.processing)).map itemToString))) ∧
    (getStatus statusState).last = Option.map getLogEntry statusState.last ∧
    (setLastQueue statusItemDone statusState).last = some statusItemDone ∧
    (setLastQueue { type := QType.callback, id := some "cb" } statusState).last =
      statusState.last :=
  c8_getStatus_amended statusState statusItemDone { type := QType.callback, id := some "cb" }
    (by decide) rfl

end SiapBridge
